import Mathlib

/-!
# Verification of `cmd/fetch_private_channels.go`

A shallow embedding of the `fetch-private-channels` subcommand of the
slack-advanced-exporter. The Go source reads a zip archive, copies every
entry verbatim into a fresh target archive, and — when no `groups.json`
entry was found — fetches the list of private channels together with each
channel's message history and thread replies from the Slack API, writing
the results as additional archive entries.

The embedding models:
* JSON values that the code inspects through Go type assertions (`JValue`,
  `Record`);
* the HTTP exchange as a *script*: the list of responses the remote side
  produces, consumed in the order the program issues requests
  (`PageResult`); each fetcher returns the requests it issued, the
  unconsumed remainder of the script, and its outcome;
* the cursor-driven pagination loop shared verbatim by the three Go
  fetchers (`fetchPages`), and the three fetchers themselves;
* the orchestration in `createGroupsJson` and the archive rewrite in
  `fetchPrivateChannels`. Archive entries are (name, header, content)
  records; the contents written through `json.Encoder` are modelled at the
  level of the record list being serialized (`EntryContent.records`),
  byte-for-byte copies as raw bytes (`EntryContent.bytes`).

Process-exit paths (`os.Exit` on archive I/O failures) terminate the
process before any further data-dependent behaviour; the embedding models
the data-dependent part of the run. The `verbosePrintln` logging
collaborator has no effect on data flow and is not modelled. Go's
`url.Values.Encode` re-orders query parameters alphabetically when
rendering the URL; requests are modelled as the parameter list in the
order the code `Add`s them, which carries the same information.
-/

/-- A JSON value as Go's `encoding/json` decodes it into `interface{}`,
restricted to the shapes the code distinguishes: strings (Go `string`),
numbers (Go `float64`), and everything else, which the code never
inspects except through failing type assertions. `other` is an opaque
stand-in for arrays, objects, booleans and null. -/
inductive JValue where
  | str (s : String)
  | num (x : Int)
  | other (tag : Nat)
deriving DecidableEq, Repr

/-- One decoded JSON object (`map[string]interface{}` in the Go source):
a channel or a message record, kept as an association list of fields. -/
structure Record where
  fields : List (String × JValue)
deriving DecidableEq, Repr

/-- Go map lookup `m[k]`: the value stored under `k`, if any. -/
def Record.get (r : Record) (k : String) : Option JValue :=
  (r.fields.find? (fun p => p.1 == k)).map Prod.snd

/-- One GET request as the code builds it: URL, bearer token (the
`Authorization` header), and the query parameters in `query.Add` order. -/
structure ApiRequest where
  url : String
  token : String
  params : List (String × String)
deriving DecidableEq, Repr

/-- The body of an HTTP response: either it fails to decode into the
anonymous struct (`json.Decoder.Decode` error), or it decodes to the
`ok` flag, the record list (`messages` / `channels`), and
`response_metadata.next_cursor`. -/
inductive BodyResult where
  | malformed (err : String)
  | decoded (ok : Bool) (records : List Record) (nextCursor : String)
deriving DecidableEq, Repr

/-- What the remote side does with one request: either `client.Do`
itself fails, or an HTTP response with a status code and a body arrives. -/
inductive PageResult where
  | netErr (err : String)
  | httpResp (status : Nat) (body : BodyResult)
deriving DecidableEq, Repr

/-- The error cases of the Go fetchers. `noResponse` is the model's
rendering of a request for which the script holds no response (the
documented non-termination risk when the remote never ends pagination). -/
inductive FetchError where
  | netErr (err : String)
  | httpStatus (code : Nat)
  | decodeErr (err : String)
  | apiNotOk
  | noResponse
deriving DecidableEq, Repr

/-- The error message each `FetchError` carries in the Go source. -/
def FetchError.message : FetchError → String
  | .netErr e => e
  | .httpStatus code => "Slack API returned HTTP code " ++ toString code
  | .decodeErr e => e
  | .apiNotOk => "unexpected lack of ok=true in Slack API response. Is access token correct?"
  | .noResponse => "no response"

/-- Build one request the way every fetcher does: fixed query parameters
first, then `cursor` — added only when the cursor string is non-empty. -/
def buildRequest (url token : String) (base : List (String × String)) (cursor : String) :
    ApiRequest :=
  { url := url, token := token,
    params := base ++ (if cursor = "" then [] else [("cursor", cursor)]) }

def historyUrl : String := "https://slack.com/api/conversations.history"

def repliesUrl : String := "https://slack.com/api/conversations.replies"

def listUrl : String := "https://slack.com/api/conversations.list"

/-- The cursor-driven pagination loop that appears verbatim in
`fetchChannelHistory`, `fetchChannelReplies` and
`fetchPrivateChannelsList`: issue a request for the current cursor;
fail on transport error, on a status other than `http.StatusOK` (200),
on a body that does not decode, or on `ok:false`; otherwise append the
page's records to the accumulator and continue with `next_cursor`,
stopping when it is empty. Returns the requests issued, the unconsumed
script, and on success the accumulated records with the final cursor
value (the loop only exits on an empty cursor). -/
def fetchPages (build : String → ApiRequest) (acc : List Record) (cursor : String) :
    List PageResult →
      List ApiRequest × List PageResult × Except FetchError (List Record × String)
  | [] => ([build cursor], [], .error .noResponse)
  | page :: rest =>
    match page with
    | .netErr e => ([build cursor], rest, .error (.netErr e))
    | .httpResp status body =>
      if status = 200 then
        match body with
        | .malformed e => ([build cursor], rest, .error (.decodeErr e))
        | .decoded ok records nextCursor =>
          if ok then
            if nextCursor = "" then
              ([build cursor], rest, .ok (acc ++ records, ""))
            else
              let r := fetchPages build (acc ++ records) nextCursor rest
              (build cursor :: r.1, r.2.1, r.2.2)
          else
            ([build cursor], rest, .error .apiNotOk)
      else
        ([build cursor], rest, .error (.httpStatus status))

/-- The thread-parent scan inside `fetchChannelHistory`'s loop: a message
whose `reply_count` type-asserts to `float64` and whose `ts`
type-asserts to `string` contributes its `ts`, in order. -/
def threadParentIds : List Record → List String
  | [] => []
  | m :: rest =>
    match m.get "reply_count" with
    | some (.num _) =>
      match m.get "ts" with
      | some (.str id) => id :: threadParentIds rest
      | _ => threadParentIds rest
    | _ => threadParentIds rest

/-- `fetchChannelHistory`: paginate `conversations.history` for one
channel (limit 200) and return the thread-parent timestamps together
with the full accumulated message list (which the Go function serializes
into its output entry). -/
def fetchChannelHistory (token channelId : String) (script : List PageResult) :
    List ApiRequest × List PageResult × Except FetchError (List String × List Record) :=
  let r := fetchPages
    (buildRequest historyUrl token [("limit", "200"), ("channel", channelId)]) [] "" script
  (r.1, r.2.1, r.2.2.map (fun p => (threadParentIds p.1, p.1)))

/-- The outer loop of `fetchChannelReplies`: one pagination run per
thread-parent timestamp, sharing the accumulator `res` and — as in the
Go source, where `cursor` is declared outside the outer loop — carrying
the cursor value from one timestamp's run into the next. -/
def fetchRepliesLoop (token channelId : String) (acc : List Record) (cursor : String) :
    List String → List PageResult →
      List ApiRequest × List PageResult × Except FetchError (List Record × String)
  | [], script => ([], script, .ok (acc, cursor))
  | tsId :: rest, script =>
    let r := fetchPages
      (buildRequest repliesUrl token [("limit", "200"), ("channel", channelId), ("ts", tsId)])
      acc cursor script
    match r.2.2 with
    | .error e => (r.1, r.2.1, .error e)
    | .ok p =>
      let r2 := fetchRepliesLoop token channelId p.1 p.2 rest r.2.1
      (r.1 ++ r2.1, r2.2.1, r2.2.2)

/-- `fetchChannelReplies`: paginate `conversations.replies` (limit 200)
once per thread-parent timestamp and return the combined reply list
(which the Go function serializes into its output entry). -/
def fetchChannelReplies (token channelId : String) (tsIds : List String)
    (script : List PageResult) :
    List ApiRequest × List PageResult × Except FetchError (List Record) :=
  let r := fetchRepliesLoop token channelId [] "" tsIds script
  (r.1, r.2.1, r.2.2.map Prod.fst)

/-- `fetchPrivateChannelsList`: paginate `conversations.list` with
`types=private_channel`, limit 1000, returning the accumulated channel
records. -/
def fetchPrivateChannelsList (token : String) (script : List PageResult) :
    List ApiRequest × List PageResult × Except FetchError (List Record) :=
  let r := fetchPages
    (buildRequest listUrl token [("limit", "1000"), ("types", "private_channel")]) [] "" script
  (r.1, r.2.1, r.2.2.map Prod.fst)

/-- How a run of `createGroupsJson` can fail: a fetcher error returned to
the caller, or the panic of the unchecked type assertions
`channel["id"].(string)` / `channel["name"].(string)`. -/
inductive RunError where
  | fetch (e : FetchError)
  | panicIdName
deriving DecidableEq, Repr

/-- The two unchecked type assertions at the top of `createGroupsJson`'s
channel loop: `none` models the Go panic when `id` or `name` is absent
or not a string. -/
def channelIdName (channel : Record) : Option (String × String) :=
  match channel.get "id", channel.get "name" with
  | some (.str i), some (.str n) => some (i, n)
  | _, _ => none

/-- What one archive entry holds: bytes copied verbatim from the source
archive, the 4-space-indented JSON serialization of a record list, or
nothing (an entry that was created but never written — which happens to
`<name>/messages.json` when the history fetch fails, to
`<name>/replies.json` when the discarded replies fetch fails, and to the
post-loop `groups.json` when the source already had one). -/
inductive EntryContent where
  | bytes (bs : List Nat)
  | records (rs : List Record)
  | empty
deriving DecidableEq, Repr

/-- The channel loop of `createGroupsJson`. For each channel it extracts
`id` and `name` (panicking on a failed assertion), creates
`<name>/messages.json` and runs the history fetch (whose error aborts
the loop), then creates `<name>/replies.json` and runs the replies
fetch — whose returned error the Go source discards (line 141), so the
loop continues regardless. Returns the unconsumed script, the entries
created so far in creation order, and the outcome. -/
def processChannels (token : String) :
    List Record → List PageResult →
      List PageResult × List (String × EntryContent) × Except RunError Unit
  | [], script => (script, [], .ok ())
  | channel :: rest, script =>
    match channelIdName channel with
    | none => (script, [], .error .panicIdName)
    | some (channelId, channelName) =>
      let hist := fetchChannelHistory token channelId script
      match hist.2.2 with
      | .error e => (hist.2.1, [(channelName ++ "/messages.json", .empty)], .error (.fetch e))
      | .ok hm =>
        let rep := fetchChannelReplies token channelId hm.1 hist.2.1
        let repContent : EntryContent :=
          match rep.2.2 with
          | .error _ => .empty
          | .ok replies => .records replies
        let next := processChannels token rest rep.2.1
        (next.1,
         (channelName ++ "/messages.json", .records hm.2)
           :: (channelName ++ "/replies.json", repContent) :: next.2.1,
         next.2.2)

/-- `createGroupsJson`: fetch the private-channel list, serialize it into
the already-created `groups.json` entry, then run the channel loop.
Returns the unconsumed script, the content written to `groups.json`, the
per-channel entries created, and the outcome. -/
def createGroupsJson (token : String) (script : List PageResult) :
    List PageResult × EntryContent × List (String × EntryContent) × Except RunError Unit :=
  let listing := fetchPrivateChannelsList token script
  match listing.2.2 with
  | .error e => (listing.2.1, .empty, [], .error (.fetch e))
  | .ok channels =>
    let rest := processChannels token channels listing.2.1
    (rest.1, .records channels, rest.2.1, rest.2.2)

/-- One entry of the source archive: name, opaque header metadata beyond
the name, and its bytes. -/
structure SourceEntry where
  name : String
  header : Nat
  body : List Nat
deriving DecidableEq, Repr

/-- One entry of the target archive. Entries made by the copy loop keep
the source header (`copiedHeader = some h`, via `w.CreateHeader`);
entries made by `w.Create` get a fresh default header (`none`). -/
structure TargetEntry where
  name : String
  copiedHeader : Option Nat
  content : EntryContent
deriving DecidableEq, Repr

/-- The copy the rewrite loop makes of one source entry: same name, the
source header passed to `w.CreateHeader`, and the bytes moved verbatim
by `io.Copy`. -/
def copiedEntry (f : SourceEntry) : TargetEntry :=
  { name := f.name, copiedHeader := some f.header, content := .bytes f.body }

/-- `fetchPrivateChannels` (the `RunE` body): copy every source entry
into the target in order, noting whether one was literally named
`"groups.json"`; then unconditionally `w.Create("groups.json")`; if none
was found, delegate to `createGroupsJson` to fill it and to add the
per-channel entries. Returns the unconsumed script, the target archive's
entries in creation order, and the outcome. -/
def fetchPrivateChannels (files : List SourceEntry) (token : String)
    (script : List PageResult) :
    List PageResult × List TargetEntry × Except RunError Unit :=
  let copied := files.map copiedEntry
  let groupsFound := files.any (fun f => f.name == "groups.json")
  if groupsFound then
    (script, copied ++ [⟨"groups.json", none, .empty⟩], .ok ())
  else
    let g := createGroupsJson token script
    (g.1,
     copied ++ ⟨"groups.json", none, g.2.1⟩
       :: g.2.2.1.map (fun p => ⟨p.1, none, p.2⟩),
     g.2.2.2)

/-! ## Specification-side definitions -/

/-- The records carried by one scripted response (empty for pages that
are not successfully decoded). -/
def pageRecords : PageResult → List Record
  | .httpResp _ (.decoded _ recs _) => recs
  | _ => []

/-- The concatenation, in page order, of the records of a script. -/
def scriptRecords (script : List PageResult) : List Record :=
  (script.map pageRecords).flatten

/-- A request that does not carry a `cursor` query parameter. -/
def noCursorParam (r : ApiRequest) : Bool :=
  r.params.all (fun p => p.1 != "cursor")

/-- Stated from the claim's words, for comparison with the code's
`threadParentIds`: the `ts` values of exactly those messages that carry
a `reply_count` field, in original order. A message without a
string-valued `ts` has no `ts` value to contribute. -/
def tsValuesOfReplyCountMessages (msgs : List Record) : List String :=
  msgs.filterMap (fun m =>
    if (m.get "reply_count").isSome then
      match m.get "ts" with
      | some (.str s) => some s
      | _ => none
    else none)

/-- The data-model constraint on one field: absent, or a JSON number. -/
def numericWhenPresent : Option JValue → Bool
  | none => true
  | some (.num _) => true
  | some _ => false

/-- A script of successfully decoded `ok:true` pages whose cursors chain
to the final empty cursor: the shape the pagination loop is specified to
consume completely. -/
inductive TerminatingScript : List PageResult → Prop
  | last (recs : List Record) :
      TerminatingScript [.httpResp 200 (.decoded true recs "")]
  | cons {c : String} (recs : List Record) {rest : List PageResult} :
      c ≠ "" → TerminatingScript rest →
      TerminatingScript (.httpResp 200 (.decoded true recs c) :: rest)

/-- A script of successfully decoded `ok:true` pages with non-empty
cursors: pages the loop consumes and then keeps going. -/
inductive OkPages : List PageResult → Prop
  | nil : OkPages []
  | cons {c : String} (recs : List Record) {rest : List PageResult} :
      c ≠ "" → OkPages rest →
      OkPages (.httpResp 200 (.decoded true recs c) :: rest)

/-! ## Pagination loop lemmas -/

theorem fetchPages_acc (build : String → ApiRequest) :
    ∀ (script : List PageResult) (acc : List Record) (c : String),
      fetchPages build acc c script
        = ((fetchPages build [] c script).1, (fetchPages build [] c script).2.1,
           (fetchPages build [] c script).2.2.map (fun p => (acc ++ p.1, p.2))) := by
  intro script
  induction script with
  | nil => intro acc c; simp [fetchPages, Except.map]
  | cons page rest ih =>
    intro acc c
    cases page with
    | netErr e => simp [fetchPages, Except.map]
    | httpResp status body =>
      by_cases hs : status = 200
      · cases body with
        | malformed e => simp [fetchPages, hs, Except.map]
        | decoded ok records nextCursor =>
          cases ok with
          | false => simp [fetchPages, hs, Except.map]
          | true =>
            by_cases hnc : nextCursor = ""
            · simp [fetchPages, hs, hnc, Except.map]
            · simp only [fetchPages, hs, if_true, hnc, if_false, ite_true, ite_false]
              rw [ih (acc ++ records) nextCursor, ih ([] ++ records) nextCursor]
              cases hout : (fetchPages build [] nextCursor rest).2.2 with
              | error e => simp [Except.map]
              | ok p => simp [Except.map, List.append_assoc]
      · simp [fetchPages, hs, Except.map]

theorem fetchPages_final_cursor (build : String → ApiRequest) :
    ∀ (script : List PageResult) (acc : List Record) (c : String) (res : List Record)
      (fc : String),
      (fetchPages build acc c script).2.2 = .ok (res, fc) → fc = "" := by
  intro script
  induction script with
  | nil => intro acc c res fc h; simp [fetchPages] at h
  | cons page rest ih =>
    intro acc c res fc h
    cases page with
    | netErr e => simp [fetchPages] at h
    | httpResp status body =>
      by_cases hs : status = 200
      · cases body with
        | malformed e => simp [fetchPages, hs] at h
        | decoded ok records nextCursor =>
          cases ok with
          | false => simp [fetchPages, hs] at h
          | true =>
            by_cases hnc : nextCursor = ""
            · simp [fetchPages, hs, hnc] at h
              exact h.2.symm
            · simp only [fetchPages, hs, hnc, if_true, if_false, ite_true, ite_false] at h
              exact ih (acc ++ records) nextCursor res fc h
      · simp [fetchPages, hs] at h

theorem fetchPages_status_ne (build : String → ApiRequest) :
    ∀ (script : List PageResult) (acc : List Record) (c : String) (code : Nat),
      (fetchPages build acc c script).2.2 = .error (.httpStatus code) → code ≠ 200 := by
  intro script
  induction script with
  | nil => intro acc c code h; simp [fetchPages] at h
  | cons page rest ih =>
    intro acc c code h
    cases page with
    | netErr e => simp [fetchPages] at h
    | httpResp status body =>
      by_cases hs : status = 200
      · cases body with
        | malformed e => simp [fetchPages, hs] at h
        | decoded ok records nextCursor =>
          cases ok with
          | false => simp [fetchPages, hs] at h
          | true =>
            by_cases hnc : nextCursor = ""
            · simp [fetchPages, hs, hnc] at h
            · simp only [fetchPages, hs, hnc, if_true, if_false, ite_true, ite_false] at h
              exact ih (acc ++ records) nextCursor code h
      · simp only [fetchPages, hs, if_false, ite_false] at h
        simp at h
        omega

theorem fetchPages_head (build : String → ApiRequest) (acc : List Record) (c : String)
    (script : List PageResult) :
    (fetchPages build acc c script).1.head? = some (build c) := by
  cases script with
  | nil => simp [fetchPages]
  | cons page rest =>
    cases page with
    | netErr e => simp [fetchPages]
    | httpResp status body =>
      by_cases hs : status = 200
      · cases body with
        | malformed e => simp [fetchPages, hs]
        | decoded ok records nextCursor =>
          cases ok with
          | false => simp [fetchPages, hs]
          | true =>
            by_cases hnc : nextCursor = ""
            · simp [fetchPages, hs, hnc]
            · simp [fetchPages, hs, hnc]
      · simp [fetchPages, hs]

theorem fetchPages_terminating (build : String → ApiRequest) {script : List PageResult}
    (h : TerminatingScript script) :
    ∀ (acc : List Record) (c : String),
      (fetchPages build acc c script).2.1 = []
      ∧ (fetchPages build acc c script).2.2 = .ok (acc ++ scriptRecords script, "")
      ∧ (fetchPages build acc c script).1.length = script.length := by
  induction h with
  | last recs =>
    intro acc c
    simp [fetchPages, scriptRecords, pageRecords]
  | @cons c0 recs rest0 hc _ ih =>
    intro acc c
    refine ⟨?_, ?_, ?_⟩
    · simp only [fetchPages, if_true, hc, if_false, ite_true, ite_false]
      exact (ih (acc ++ recs) c0).1
    · simp only [fetchPages, if_true, hc, if_false, ite_true, ite_false]
      rw [(ih (acc ++ recs) c0).2.1]
      simp [scriptRecords, pageRecords]
    · simp only [fetchPages, if_true, hc, if_false, ite_true, ite_false, List.length_cons]
      have h3 := (ih (acc ++ recs) c0).2.2
      omega

theorem fetchPages_okFalse (build : String → ApiRequest) {pre : List PageResult}
    (h : OkPages pre) (recs : List Record) (cur : String) (rest : List PageResult) :
    ∀ (acc : List Record) (c : String),
      (fetchPages build acc c (pre ++ .httpResp 200 (.decoded false recs cur) :: rest)).2.1
          = rest
      ∧ (fetchPages build acc c (pre ++ .httpResp 200 (.decoded false recs cur) :: rest)).2.2
          = .error .apiNotOk
      ∧ (fetchPages build acc c (pre ++ .httpResp 200 (.decoded false recs cur) :: rest)).1.length
          = pre.length + 1 := by
  induction h with
  | nil =>
    intro acc c
    simp [fetchPages]
  | @cons c0 recs0 rest0 hc _ ih =>
    intro acc c
    refine ⟨?_, ?_, ?_⟩
    · simp only [List.cons_append, fetchPages, if_true, hc, if_false, ite_true, ite_false]
      exact (ih (acc ++ recs0) c0).1
    · simp only [List.cons_append, fetchPages, if_true, hc, if_false, ite_true, ite_false]
      exact (ih (acc ++ recs0) c0).2.1
    · simp only [List.cons_append, fetchPages, if_true, hc, if_false, ite_true, ite_false,
        List.length_cons, List.length_append]
      have h3 := (ih (acc ++ recs0) c0).2.2
      simp only [List.append_eq] at h3 ⊢
      omega

/-! ## Claim C5 — pagination returns the concatenation of all pages -/

/-- C5: for every sequence of successful response pages ending in one
whose `next_cursor` is empty, `fetchPrivateChannelsList` returns the
concatenation of the pages' record lists in page order (no reordering
or deduplication), issues exactly one request per page, and stops
consuming responses exactly at the empty cursor (no response beyond the
script is touched). -/
theorem pagination_concatenates_pages (tok : String) {script : List PageResult}
    (h : TerminatingScript script) :
    (fetchPrivateChannelsList tok script).2.2 = .ok (scriptRecords script)
    ∧ (fetchPrivateChannelsList tok script).1.length = script.length
    ∧ (fetchPrivateChannelsList tok script).2.1 = [] := by
  have h1 := fetchPages_terminating
    (buildRequest listUrl tok [("limit", "1000"), ("types", "private_channel")]) h [] ""
  unfold fetchPrivateChannelsList
  dsimp only
  refine ⟨?_, ?_, ?_⟩
  · rw [h1.2.1]; simp [Except.map]
  · exact h1.2.2
  · exact h1.1

/-- Witness for C5 on a concrete two-page script. -/
theorem pagination_concatenates_pages_witness :
    (fetchPrivateChannelsList "tok"
        [.httpResp 200 (.decoded true [⟨[("id", .str "C1")]⟩] "next"),
         .httpResp 200 (.decoded true [⟨[("id", .str "C2")]⟩] "")]).2.2
      = .ok (scriptRecords
        [.httpResp 200 (.decoded true [⟨[("id", .str "C1")]⟩] "next"),
         .httpResp 200 (.decoded true [⟨[("id", .str "C2")]⟩] "")])
    ∧ (fetchPrivateChannelsList "tok"
        [.httpResp 200 (.decoded true [⟨[("id", .str "C1")]⟩] "next"),
         .httpResp 200 (.decoded true [⟨[("id", .str "C2")]⟩] "")]).1.length
      = [PageResult.httpResp 200 (.decoded true [⟨[("id", .str "C1")]⟩] "next"),
         PageResult.httpResp 200 (.decoded true [⟨[("id", .str "C2")]⟩] "")].length
    ∧ (fetchPrivateChannelsList "tok"
        [.httpResp 200 (.decoded true [⟨[("id", .str "C1")]⟩] "next"),
         .httpResp 200 (.decoded true [⟨[("id", .str "C2")]⟩] "")]).2.1 = [] :=
  pagination_concatenates_pages "tok"
    (TerminatingScript.cons _ (by decide) (TerminatingScript.last _))

/-! ## Claim C7 — `ok:false` rejects the call and halts pagination -/

/-- C7: a decoded response carrying `ok:false` at any page makes the
fetch return the API-rejection error (whose message points at bad
credentials), consume no further scripted response, and discard the
records accumulated so far (the outcome is an error, not a record
list). -/
theorem okFalse_rejects_and_halts (tok : String) {pre : List PageResult} (h : OkPages pre)
    (recs : List Record) (cur : String) (rest : List PageResult) :
    (fetchPrivateChannelsList tok
        (pre ++ .httpResp 200 (.decoded false recs cur) :: rest)).2.2
      = .error .apiNotOk
    ∧ (fetchPrivateChannelsList tok
        (pre ++ .httpResp 200 (.decoded false recs cur) :: rest)).2.1 = rest
    ∧ (fetchPrivateChannelsList tok
        (pre ++ .httpResp 200 (.decoded false recs cur) :: rest)).1.length
      = pre.length + 1
    ∧ FetchError.apiNotOk.message
      = "unexpected lack of ok=true in Slack API response. Is access token correct?" := by
  have h1 := fetchPages_okFalse
    (buildRequest listUrl tok [("limit", "1000"), ("types", "private_channel")]) h recs cur rest
    [] ""
  unfold fetchPrivateChannelsList
  dsimp only
  refine ⟨?_, h1.1, h1.2.2, rfl⟩
  rw [h1.2.1]
  rfl

/-- Witness for C7: the very first page answers `ok:false`; the scripted
response behind it is left unconsumed. -/
theorem okFalse_rejects_and_halts_witness :
    (fetchPrivateChannelsList "tok"
        ([] ++ .httpResp 200 (.decoded false [] "c") :: [.netErr "unreached"])).2.2
      = .error .apiNotOk
    ∧ (fetchPrivateChannelsList "tok"
        ([] ++ .httpResp 200 (.decoded false [] "c") :: [.netErr "unreached"])).2.1
      = [.netErr "unreached"]
    ∧ (fetchPrivateChannelsList "tok"
        ([] ++ .httpResp 200 (.decoded false [] "c") :: [.netErr "unreached"])).1.length
      = List.length ([] : List PageResult) + 1
    ∧ FetchError.apiNotOk.message
      = "unexpected lack of ok=true in Slack API response. Is access token correct?" :=
  okFalse_rejects_and_halts "tok" OkPages.nil [] "c" [.netErr "unreached"]

/-! ## Claim C8 — which statuses are rejected as transport errors -/

/-- C8 counterexample: the claim says every 2xx status is processed
normally, but the code compares against `http.StatusOK` alone: a 201
response — inside the 2xx range — is rejected as a transport error
carrying code 201. -/
theorem status_201_rejected_counterexample :
    (fetchChannelHistory "t" "C" [.httpResp 201 (.decoded true [] "")]).2.2
      = .error (.httpStatus 201)
    ∧ 200 ≤ 201 ∧ 201 ≤ 299 :=
  ⟨rfl, by omega, by omega⟩

/-- C8 (amended): a response fails with a transport error carrying its
status code iff the status is not exactly 200; a 200 response with a
well-formed `ok:true` body is processed normally. -/
theorem transport_error_iff_status_ne_200 (tok ch : String) (status : Nat)
    (body : BodyResult) (rest : List PageResult) :
    ((fetchChannelHistory tok ch (.httpResp status body :: rest)).2.2
        = .error (.httpStatus status) ↔ status ≠ 200)
    ∧ (∀ recs : List Record, status = 200 → body = .decoded true recs "" →
        (fetchChannelHistory tok ch (.httpResp status body :: rest)).2.2
          = .ok (threadParentIds recs, recs)) := by
  constructor
  · constructor
    · intro h
      unfold fetchChannelHistory at h
      dsimp only at h
      cases hfp : (fetchPages (buildRequest historyUrl tok
          [("limit", "200"), ("channel", ch)]) [] ""
          (.httpResp status body :: rest)).2.2 with
      | error e =>
        rw [hfp] at h
        simp [Except.map] at h
        subst h
        exact fetchPages_status_ne _ _ _ _ _ hfp
      | ok p =>
        rw [hfp] at h
        simp [Except.map] at h
    · intro hs
      unfold fetchChannelHistory
      simp [fetchPages, hs, Except.map]
  · intro recs hs hb
    subst hs; subst hb
    unfold fetchChannelHistory
    simp [fetchPages, Except.map]

/-- Witness for C8's amended statement at status 201 (rejected) and
status 200 (processed normally). -/
theorem transport_error_iff_status_ne_200_witness :
    (fetchChannelHistory "t" "C" [.httpResp 201 (.decoded true [] "next")]).2.2
      = .error (.httpStatus 201)
    ∧ (fetchChannelHistory "t" "C" [.httpResp 200 (.decoded true [] "")]).2.2
      = .ok (threadParentIds [], []) :=
  ⟨(transport_error_iff_status_ne_200 "t" "C" 201 (.decoded true [] "next") []).1.mpr
      (by omega),
   (transport_error_iff_status_ne_200 "t" "C" 200 (.decoded true [] "") []).2 [] rfl rfl⟩

/-! ## Claim C6 — thread-parent extraction -/

theorem threadParentIds_eq_spec :
    ∀ msgs : List Record,
      (∀ m ∈ msgs, numericWhenPresent (m.get "reply_count") = true) →
      threadParentIds msgs = tsValuesOfReplyCountMessages msgs := by
  intro msgs
  induction msgs with
  | nil => intro _; rfl
  | cons m rest ih =>
    intro h
    have hm := h m (List.mem_cons_self m rest)
    have hrest := ih (fun x hx => h x (List.mem_cons_of_mem m hx))
    cases hrc : m.get "reply_count" with
    | none =>
      simp only [threadParentIds, hrc, tsValuesOfReplyCountMessages, List.filterMap_cons,
        Option.isSome_none, Bool.false_eq_true, if_false, ite_false]
      exact hrest
    | some v =>
      rw [hrc] at hm
      cases v with
      | str s => simp [numericWhenPresent] at hm
      | other t => simp [numericWhenPresent] at hm
      | num x =>
        cases hts : m.get "ts" with
        | none =>
          simp only [threadParentIds, hrc, hts, tsValuesOfReplyCountMessages,
            List.filterMap_cons, Option.isSome_some, if_true, ite_true]
          exact hrest
        | some w =>
          cases w with
          | str s =>
            simp only [threadParentIds, hrc, hts, tsValuesOfReplyCountMessages,
              List.filterMap_cons, Option.isSome_some, if_true, ite_true]
            rw [hrest]
            rfl
          | num y =>
            simp only [threadParentIds, hrc, hts, tsValuesOfReplyCountMessages,
              List.filterMap_cons, Option.isSome_some, if_true, ite_true]
            exact hrest
          | other t =>
            simp only [threadParentIds, hrc, hts, tsValuesOfReplyCountMessages,
              List.filterMap_cons, Option.isSome_some, if_true, ite_true]
            exact hrest

/-- C6: when a history fetch succeeds and — as the data model
states — every present `reply_count` field is numeric, the returned
thread-parent sequence is exactly the `ts` values of the messages
carrying a `reply_count` field, in the original order of the
accumulated pages. -/
theorem history_returns_thread_parents (tok ch : String) (script : List PageResult)
    (tsIds : List String) (msgs : List Record)
    (hok : (fetchChannelHistory tok ch script).2.2 = .ok (tsIds, msgs))
    (hnum : ∀ m ∈ msgs, numericWhenPresent (m.get "reply_count") = true) :
    tsIds = tsValuesOfReplyCountMessages msgs := by
  unfold fetchChannelHistory at hok
  dsimp only at hok
  cases hfp : (fetchPages (buildRequest historyUrl tok
      [("limit", "200"), ("channel", ch)]) [] "" script).2.2 with
  | error e => rw [hfp] at hok; simp [Except.map] at hok
  | ok p =>
    rw [hfp] at hok
    simp only [Except.map, Except.ok.injEq, Prod.mk.injEq] at hok
    rw [← hok.1, hok.2]
    exact threadParentIds_eq_spec msgs hnum

/-- Witness for C6 on one page holding a thread parent and a plain
message. -/
theorem history_returns_thread_parents_witness :
    (fetchChannelHistory "t" "C"
        [.httpResp 200 (.decoded true
          [⟨[("ts", .str "1.0"), ("reply_count", .num 2)]⟩, ⟨[("ts", .str "2.0")]⟩] "")]).2.2
      = .ok (["1.0"],
          [⟨[("ts", .str "1.0"), ("reply_count", .num 2)]⟩, ⟨[("ts", .str "2.0")]⟩])
    ∧ ["1.0"] = tsValuesOfReplyCountMessages
        [⟨[("ts", .str "1.0"), ("reply_count", .num 2)]⟩, ⟨[("ts", .str "2.0")]⟩] :=
  ⟨rfl,
   history_returns_thread_parents "t" "C"
     [.httpResp 200 (.decoded true
       [⟨[("ts", .str "1.0"), ("reply_count", .num 2)]⟩, ⟨[("ts", .str "2.0")]⟩] "")]
     ["1.0"]
     [⟨[("ts", .str "1.0"), ("reply_count", .num 2)]⟩, ⟨[("ts", .str "2.0")]⟩]
     rfl (by decide)⟩

/-! ## Claim C9 — replies are fetched per thread parent and concatenated -/

/-- The behaviour §4.4 specifies for the reply fetch: one full
pagination run per thread-parent timestamp, started with an empty
accumulator and an empty cursor, each run consuming the script where the
previous one stopped. A segment records the requests the run issued and
the records it produced. -/
inductive RepliesChain (token channelId : String) :
    List String → List PageResult → List PageResult →
      List (List ApiRequest × List Record) → Prop
  | nil (script : List PageResult) : RepliesChain token channelId [] script script []
  | cons {tsId : String} {rest : List String} {script rem1 rem : List PageResult}
      {reqs : List ApiRequest} {recs : List Record}
      {segs : List (List ApiRequest × List Record)} :
      fetchPages (buildRequest repliesUrl token
          [("limit", "200"), ("channel", channelId), ("ts", tsId)]) [] "" script
        = (reqs, rem1, .ok (recs, "")) →
      RepliesChain token channelId rest rem1 rem segs →
      RepliesChain token channelId (tsId :: rest) script rem ((reqs, recs) :: segs)

theorem fetchRepliesLoop_ok (token ch : String) :
    ∀ (tsIds : List String) (script : List PageResult) (acc res : List Record)
      (reqs : List ApiRequest) (rem : List PageResult) (fc : String),
      fetchRepliesLoop token ch acc "" tsIds script = (reqs, rem, .ok (res, fc)) →
      ∃ segs, RepliesChain token ch tsIds script rem segs
        ∧ res = acc ++ (segs.map Prod.snd).flatten
        ∧ reqs = (segs.map Prod.fst).flatten := by
  intro tsIds
  induction tsIds with
  | nil =>
    intro script acc res reqs rem fc h
    simp only [fetchRepliesLoop, Prod.mk.injEq, Except.ok.injEq] at h
    refine ⟨[], ?_, ?_, ?_⟩
    · rw [← h.2.1]; exact RepliesChain.nil script
    · simp [← h.2.2.1]
    · simp [← h.1]
  | cons ts rest ih =>
    intro script acc res reqs rem fc h
    unfold fetchRepliesLoop at h
    dsimp only at h
    have hacc := fetchPages_acc (buildRequest repliesUrl token
      [("limit", "200"), ("channel", ch), ("ts", ts)]) script acc ""
    cases hbase : (fetchPages (buildRequest repliesUrl token
        [("limit", "200"), ("channel", ch), ("ts", ts)]) [] "" script).2.2 with
    | error e =>
      rw [hacc] at h
      dsimp only at h
      rw [hbase] at h
      simp [Except.map] at h
    | ok q =>
      rcases q with ⟨qr, qc⟩
      have hqc : qc = "" :=
        fetchPages_final_cursor _ script [] "" qr qc hbase
      subst hqc
      rw [hacc] at h
      dsimp only at h
      rw [hbase] at h
      simp only [Except.map, Prod.mk.injEq] at h
      obtain ⟨h1, h2, h3⟩ := h
      obtain ⟨segs, hchain, hres, hreqs⟩ :=
        ih (fetchPages (buildRequest repliesUrl token
              [("limit", "200"), ("channel", ch), ("ts", ts)]) [] "" script).2.1
          (acc ++ qr) res
          (fetchRepliesLoop token ch (acc ++ qr) "" rest
            (fetchPages (buildRequest repliesUrl token
              [("limit", "200"), ("channel", ch), ("ts", ts)]) [] "" script).2.1).1
          (fetchRepliesLoop token ch (acc ++ qr) "" rest
            (fetchPages (buildRequest repliesUrl token
              [("limit", "200"), ("channel", ch), ("ts", ts)]) [] "" script).2.1).2.1
          fc (by rw [← h3])
      refine ⟨((fetchPages (buildRequest repliesUrl token
          [("limit", "200"), ("channel", ch), ("ts", ts)]) [] "" script).1, qr) :: segs,
        ?_, ?_, ?_⟩
      · refine RepliesChain.cons (by rw [← hbase]) ?_
        rw [← h2]
        exact hchain
      · rw [hres]
        simp [List.append_assoc]
      · rw [← h1, hreqs]
        simp

theorem repliesChain_head_no_cursor (token ch : String) :
    ∀ {tsIds : List String} {script rem : List PageResult}
      {segs : List (List ApiRequest × List Record)},
      RepliesChain token ch tsIds script rem segs →
      ∀ seg ∈ segs, ∀ r, seg.1.head? = some r → noCursorParam r = true := by
  intro tsIds script rem segs hchain
  induction hchain with
  | nil => intro seg hseg; simp at hseg
  | @cons tsId rest script0 rem1 rem0 reqs0 recs0 segs0 hfp _ ih =>
    intro seg hseg r hr
    rcases List.mem_cons.mp hseg with heq | hmem
    · subst heq
      have hhead := fetchPages_head (buildRequest repliesUrl token
        [("limit", "200"), ("channel", ch), ("ts", tsId)]) [] "" script0
      rw [hfp] at hhead
      dsimp only at hr
      rw [hr] at hhead
      have hreq : r = buildRequest repliesUrl token
          [("limit", "200"), ("channel", ch), ("ts", tsId)] "" := by
        injection hhead with hv
      rw [hreq]
      rfl
    · exact ih seg hmem r hr

/-- C9: a successful reply fetch decomposes, per thread-parent
timestamp in iteration order, into one full pagination run per
timestamp (each started with an empty accumulator and an empty cursor),
the serialized result being the concatenation of the runs' records in
that order; the first request issued for each timestamp carries no
`cursor` parameter. -/
theorem replies_concatenated_per_timestamp (token ch : String)
    (tsIds : List String) (script : List PageResult) (reqs : List ApiRequest)
    (rem : List PageResult) (res : List Record)
    (h : fetchChannelReplies token ch tsIds script = (reqs, rem, .ok res)) :
    ∃ segs, RepliesChain token ch tsIds script rem segs
      ∧ res = (segs.map Prod.snd).flatten
      ∧ reqs = (segs.map Prod.fst).flatten
      ∧ ∀ seg ∈ segs, ∀ r, seg.1.head? = some r → noCursorParam r = true := by
  unfold fetchChannelReplies at h
  dsimp only at h
  cases hout : (fetchRepliesLoop token ch [] "" tsIds script).2.2 with
  | error e => rw [hout] at h; simp [Except.map] at h
  | ok p =>
    rw [hout] at h
    simp only [Except.map, Prod.mk.injEq, Except.ok.injEq] at h
    obtain ⟨h1, h2, h3⟩ := h
    obtain ⟨segs, hchain, hres, hreqs⟩ :=
      fetchRepliesLoop_ok token ch tsIds script [] p.1
        (fetchRepliesLoop token ch [] "" tsIds script).1
        (fetchRepliesLoop token ch [] "" tsIds script).2.1
        p.2 (by rw [← hout])
    refine ⟨segs, ?_, ?_, ?_, ?_⟩
    · rw [← h2]; exact hchain
    · rw [← h3, hres]; simp
    · rw [← h1, hreqs]
    · exact repliesChain_head_no_cursor token ch hchain

/-- Witness for C9 on two thread parents with one reply page each. -/
theorem replies_concatenated_per_timestamp_witness :
    ∃ segs, RepliesChain "t" "C" ["1.0", "2.0"]
        [.httpResp 200 (.decoded true [⟨[("a", .num 1)]⟩] ""),
         .httpResp 200 (.decoded true [⟨[("b", .num 2)]⟩] "")] [] segs
      ∧ [(⟨[("a", JValue.num 1)]⟩ : Record), ⟨[("b", JValue.num 2)]⟩]
          = (segs.map Prod.snd).flatten
      ∧ [ApiRequest.mk repliesUrl "t" [("limit", "200"), ("channel", "C"), ("ts", "1.0")],
         ApiRequest.mk repliesUrl "t" [("limit", "200"), ("channel", "C"), ("ts", "2.0")]]
          = (segs.map Prod.fst).flatten
      ∧ ∀ seg ∈ segs, ∀ r, seg.1.head? = some r → noCursorParam r = true :=
  replies_concatenated_per_timestamp "t" "C" ["1.0", "2.0"]
    [.httpResp 200 (.decoded true [⟨[("a", .num 1)]⟩] ""),
     .httpResp 200 (.decoded true [⟨[("b", .num 2)]⟩] "")]
    [ApiRequest.mk repliesUrl "t" [("limit", "200"), ("channel", "C"), ("ts", "1.0")],
     ApiRequest.mk repliesUrl "t" [("limit", "200"), ("channel", "C"), ("ts", "2.0")]]
    []
    [⟨[("a", JValue.num 1)]⟩, ⟨[("b", JValue.num 2)]⟩]
    rfl

/-! ## Claim C10 — unchecked type assertions on channel id and name -/

/-- C10: when a channel record carries string-valued `id` and `name`
fields the orchestrator extracts them (no panic); a record whose `id` is
not a string makes the unchecked type assertion panic — modelled as the
`panicIdName` outcome of the channel loop — instead of returning an
error. -/
theorem channel_extraction_no_panic :
    (∀ (c : Record) (i n : String),
        c.get "id" = some (.str i) → c.get "name" = some (.str n) →
        channelIdName c = some (i, n))
    ∧ channelIdName ⟨[("id", .num 3), ("name", .str "general")]⟩ = none
    ∧ (processChannels "t" [⟨[("id", .num 3), ("name", .str "general")]⟩] []).2.2
        = .error .panicIdName := by
  refine ⟨?_, rfl, rfl⟩
  intro c i n hid hname
  unfold channelIdName
  rw [hid, hname]

/-- Witness for C10 at a record with string `id` and `name`. -/
theorem channel_extraction_no_panic_witness :
    (⟨[("id", JValue.str "C1"), ("name", JValue.str "proj")]⟩ : Record).get "id"
        = some (.str "C1")
    ∧ (⟨[("id", JValue.str "C1"), ("name", JValue.str "proj")]⟩ : Record).get "name"
        = some (.str "proj")
    ∧ channelIdName ⟨[("id", .str "C1"), ("name", .str "proj")]⟩ = some ("C1", "proj") :=
  ⟨rfl, rfl, channel_extraction_no_panic.1 ⟨[("id", .str "C1"), ("name", .str "proj")]⟩
    "C1" "proj" rfl rfl⟩

/-! ## Claim C1 — the orchestrator drops reply-fetch errors -/

/-- C1 evaluated at the failing input: the replies page answers
`ok:false`, so the reply fetch itself returns the API-rejection error
(first conjunct); yet the channel loop — which discards
`fetchChannelReplies`' return value — writes an empty
`alpha/replies.json`, goes on to process the next channel `beta`, and
reports overall success, contradicting the claim that the error is
propagated and the remaining channels are skipped. -/
theorem replies_error_dropped :
    (fetchChannelReplies "t" "C1" ["1.0"] [.httpResp 200 (.decoded false [] "")]).2.2
      = .error .apiNotOk
    ∧ processChannels "t"
        [⟨[("id", .str "C1"), ("name", .str "alpha")]⟩,
         ⟨[("id", .str "C2"), ("name", .str "beta")]⟩]
        [.httpResp 200 (.decoded true [⟨[("ts", .str "1.0"), ("reply_count", .num 2)]⟩] ""),
         .httpResp 200 (.decoded false [] ""),
         .httpResp 200 (.decoded true [] "")]
      = ([],
         [("alpha/messages.json", .records [⟨[("ts", .str "1.0"), ("reply_count", .num 2)]⟩]),
          ("alpha/replies.json", .empty),
          ("beta/messages.json", .records []),
          ("beta/replies.json", .records [])],
         .ok ()) :=
  ⟨rfl, rfl⟩

/-! ## Claim C3 — every source entry is copied verbatim -/

/-- C3: the target archive starts with a verbatim copy of every source
entry, in order: same name, the source header passed through, the bytes
unchanged; nothing is modified or dropped, and everything the run adds
comes after the copies. -/
theorem source_entries_copied_verbatim (files : List SourceEntry) (tok : String)
    (script : List PageResult) :
    ∃ added, (fetchPrivateChannels files tok script).2.1 = files.map copiedEntry ++ added
      ∧ ∀ f ∈ files,
          (⟨f.name, some f.header, .bytes f.body⟩ : TargetEntry)
            ∈ (fetchPrivateChannels files tok script).2.1 := by
  have hshape : ∃ added,
      (fetchPrivateChannels files tok script).2.1 = files.map copiedEntry ++ added := by
    unfold fetchPrivateChannels
    dsimp only
    split
    · exact ⟨_, rfl⟩
    · exact ⟨_, rfl⟩
  obtain ⟨added, hadd⟩ := hshape
  refine ⟨added, hadd, ?_⟩
  intro f hf
  rw [hadd]
  exact List.mem_append_left _ (List.mem_map.mpr ⟨f, hf, rfl⟩)

/-! ## Claim C2 — how many `groups.json` entries the target holds -/

theorem messages_name_ne_groups (s : String) : s ++ "/messages.json" ≠ "groups.json" := by
  intro h
  have hl := congrArg String.length h
  rw [String.length_append] at hl
  have h1 : ("/messages.json" : String).length = 14 := rfl
  have h2 : ("groups.json" : String).length = 11 := rfl
  omega

theorem replies_name_ne_groups (s : String) : s ++ "/replies.json" ≠ "groups.json" := by
  intro h
  have hl := congrArg String.length h
  rw [String.length_append] at hl
  have h1 : ("/replies.json" : String).length = 13 := rfl
  have h2 : ("groups.json" : String).length = 11 := rfl
  omega

theorem processChannels_entry_names (token : String) :
    ∀ (chans : List Record) (script : List PageResult) (e : String × EntryContent),
      e ∈ (processChannels token chans script).2.1 → e.1 ≠ "groups.json" := by
  intro chans
  induction chans with
  | nil => intro script e he; simp [processChannels] at he
  | cons c rest ih =>
    intro script e he
    unfold processChannels at he
    dsimp only at he
    cases hcn : channelIdName c with
    | none => rw [hcn] at he; simp at he
    | some p =>
      rcases p with ⟨ci, cn⟩
      rw [hcn] at he
      dsimp only at he
      cases hh : (fetchChannelHistory token ci script).2.2 with
      | error err =>
        rw [hh] at he
        simp only [List.mem_singleton] at he
        rw [he]
        exact messages_name_ne_groups cn
      | ok hm =>
        rw [hh] at he
        dsimp only at he
        simp only [List.mem_cons] at he
        rcases he with h1 | h2 | h3
        · rw [h1]; exact messages_name_ne_groups cn
        · rw [h2]; exact replies_name_ne_groups cn
        · exact ih _ e h3

theorem createGroupsJson_entry_names (token : String) (script : List PageResult)
    (e : String × EntryContent) (he : e ∈ (createGroupsJson token script).2.2.1) :
    e.1 ≠ "groups.json" := by
  unfold createGroupsJson at he
  dsimp only at he
  cases hl : (fetchPrivateChannelsList token script).2.2 with
  | error err => rw [hl] at he; simp at he
  | ok channels =>
    rw [hl] at he
    dsimp only at he
    exact processChannels_entry_names token channels _ e he

theorem copies_groups_filter (files : List SourceEntry) :
    (files.map copiedEntry).filter (fun e => e.name == "groups.json")
      = (files.filter (fun f => f.name == "groups.json")).map copiedEntry := by
  rw [List.filter_map]
  rfl

/-- C2 counterexample: a source archive that already contains a
`groups.json` entry yields a target with two entries of that name (the
copied original and the unconditionally created empty one), refuting
"exactly one". -/
theorem duplicate_groups_entry_counterexample :
    ((fetchPrivateChannels [⟨"groups.json", 7, [1, 2]⟩] "t" []).2.1.filter
        (fun e => e.name == "groups.json")).length = 2
    ∧ (fetchPrivateChannels [⟨"groups.json", 7, [1, 2]⟩] "t" []).2.1
      = [⟨"groups.json", some 7, .bytes [1, 2]⟩, ⟨"groups.json", none, .empty⟩] :=
  ⟨rfl, rfl⟩

/-- C2 (amended): the target always contains exactly one more entry
named `"groups.json"` than the source — the copied originals plus the
one the rewrite unconditionally creates. When the source has none, that
single entry is the synthesized listing of private channels; when the
source already has one, the extra created entry is empty and follows
the copies. -/
theorem groups_entry_counts :
    (∀ (files : List SourceEntry) (tok : String) (script : List PageResult),
        ((fetchPrivateChannels files tok script).2.1.filter
            (fun e => e.name == "groups.json")).length
          = (files.filter (fun f => f.name == "groups.json")).length + 1)
    ∧ (∀ (files : List SourceEntry) (tok : String) (script : List PageResult)
          (channels : List Record),
        files.all (fun f => f.name != "groups.json") = true →
        (fetchPrivateChannelsList tok script).2.2 = .ok channels →
        (fetchPrivateChannels files tok script).2.1.filter
            (fun e => e.name == "groups.json")
          = [⟨"groups.json", none, .records channels⟩])
    ∧ (∀ (files : List SourceEntry) (tok : String) (script : List PageResult),
        files.any (fun f => f.name == "groups.json") = true →
        (fetchPrivateChannels files tok script).2.1
          = files.map copiedEntry ++ [⟨"groups.json", none, .empty⟩]) := by
  have hmapped : ∀ (token : String) (script : List PageResult),
      ((createGroupsJson token script).2.2.1.map
          (fun p => (⟨p.1, none, p.2⟩ : TargetEntry))).filter
        (fun e => e.name == "groups.json") = [] := by
    intro token script
    rw [List.filter_eq_nil_iff]
    intro a ha
    rcases List.mem_map.mp ha with ⟨p, hp, hpa⟩
    rw [← hpa]
    simp only [beq_iff_eq]
    exact createGroupsJson_entry_names token script p hp
  refine ⟨?_, ?_, ?_⟩
  · intro files tok script
    unfold fetchPrivateChannels
    dsimp only
    split
    · rw [List.filter_append, copies_groups_filter, List.length_append, List.length_map]
      rfl
    · next hng =>
      have hcnt : (files.filter (fun f => f.name == "groups.json")).length = 0 := by
        rw [List.length_eq_zero, List.filter_eq_nil_iff]
        intro f hf
        exact List.any_eq_false.mp (Bool.eq_false_iff.mpr hng) f hf
      rw [List.filter_append, copies_groups_filter, List.length_append, List.length_map,
        hcnt]
      simp only [List.filter_cons]
      rw [hmapped tok script]
      rfl
  · intro files tok script channels hng hlist
    unfold fetchPrivateChannels
    dsimp only
    have hanyf : files.any (fun f => f.name == "groups.json") = false := by
      rw [List.any_eq_false]
      intro f hf
      have := List.all_eq_true.mp hng f hf
      simpa using this
    rw [if_neg (by rw [hanyf]; exact Bool.false_ne_true)]
    rw [List.filter_append]
    have hcopies : (files.map copiedEntry).filter (fun e => e.name == "groups.json") = [] := by
      rw [copies_groups_filter]
      have : files.filter (fun f => f.name == "groups.json") = [] := by
        rw [List.filter_eq_nil_iff]
        intro f hf
        exact List.any_eq_false.mp hanyf f hf
      rw [this]
      rfl
    rw [hcopies]
    simp only [List.filter_cons]
    rw [hmapped tok script]
    have hcontent : (createGroupsJson tok script).2.1 = .records channels := by
      unfold createGroupsJson
      dsimp only
      rw [hlist]
    rw [hcontent]
    rfl
  · intro files tok script hany
    unfold fetchPrivateChannels
    dsimp only
    rw [if_pos hany]

/-- Witness for C2's amended statement: a source without `groups.json`
gets exactly the synthesized listing; a source with one gets the copy
plus an empty extra entry. -/
theorem groups_entry_counts_witness :
    (fetchPrivateChannels [⟨"attachments.json", 3, [9]⟩] "t"
        [.httpResp 200 (.decoded true [] "")]).2.1.filter
        (fun e => e.name == "groups.json")
      = [⟨"groups.json", none, .records []⟩]
    ∧ (fetchPrivateChannels [⟨"groups.json", 7, [1, 2]⟩] "t" []).2.1
      = [SourceEntry.mk "groups.json" 7 [1, 2]].map copiedEntry
          ++ [⟨"groups.json", none, .empty⟩] :=
  ⟨groups_entry_counts.2.1 [⟨"attachments.json", 3, [9]⟩] "t"
      [.httpResp 200 (.decoded true [] "")] [] rfl rfl,
   groups_entry_counts.2.2 [⟨"groups.json", 7, [1, 2]⟩] "t" [] rfl⟩

/-! ## Claim C4 — what a successful synthesizing run adds to the target -/

/-- The per-channel behaviour §4.5 specifies for a fully successful run:
channel by channel, in listing order, extract `id`/`name`, run the
history fetch, then run the replies fetch on the thread parents the
history produced, each fetch consuming the script where the previous one
stopped; the channel contributes one `<name>/messages.json` entry
holding its full message history and one `<name>/replies.json` entry
holding its combined replies. -/
inductive ChannelIngestion (token : String) :
    List Record → List PageResult → List PageResult →
      List (String × EntryContent) → Prop
  | nil (script : List PageResult) : ChannelIngestion token [] script script []
  | cons {channel : Record} {rest : List Record} {script rem1 rem2 rem : List PageResult}
      {i n : String} {reqs1 reqs2 : List ApiRequest} {tsIds : List String}
      {msgs reps : List Record} {es : List (String × EntryContent)} :
      channelIdName channel = some (i, n) →
      fetchChannelHistory token i script = (reqs1, rem1, .ok (tsIds, msgs)) →
      fetchChannelReplies token i tsIds rem1 = (reqs2, rem2, .ok reps) →
      ChannelIngestion token rest rem2 rem es →
      ChannelIngestion token (channel :: rest) script rem
        ((n ++ "/messages.json", .records msgs) :: (n ++ "/replies.json", .records reps) :: es)

theorem processChannels_ok_chain (token : String) :
    ∀ (chans : List Record) (script rem : List PageResult)
      (es : List (String × EntryContent)),
      processChannels token chans script = (rem, es, .ok ()) →
      (∀ e ∈ es, e.2 ≠ EntryContent.empty) →
      ChannelIngestion token chans script rem es := by
  intro chans
  induction chans with
  | nil =>
    intro script rem es h _
    simp only [processChannels, Prod.mk.injEq] at h
    rw [← h.1, ← h.2.1]
    exact ChannelIngestion.nil script
  | cons c rest ih =>
    intro script rem es h hne
    unfold processChannels at h
    dsimp only at h
    cases hcn : channelIdName c with
    | none => rw [hcn] at h; simp at h
    | some p =>
      rcases p with ⟨ci, cn⟩
      rw [hcn] at h
      dsimp only at h
      cases hh : (fetchChannelHistory token ci script).2.2 with
      | error err => rw [hh] at h; simp at h
      | ok hm =>
        rcases hm with ⟨tsIds, msgs⟩
        rw [hh] at h
        dsimp only at h
        cases hr : (fetchChannelReplies token ci tsIds
            (fetchChannelHistory token ci script).2.1).2.2 with
        | error err =>
          rw [hr] at h
          dsimp only at h
          simp only [Prod.mk.injEq] at h
          exact absurd rfl (hne (cn ++ "/replies.json", .empty)
            (by rw [← h.2.1]; exact List.mem_cons_of_mem _ (List.mem_cons_self _ _)))
        | ok replies =>
          rw [hr] at h
          dsimp only at h
          simp only [Prod.mk.injEq] at h
          obtain ⟨h1, h2, h3⟩ := h
          have hmem2 : ∀ e ∈ (processChannels token rest
              (fetchChannelReplies token ci tsIds
                (fetchChannelHistory token ci script).2.1).2.1).2.1,
              e.2 ≠ EntryContent.empty := by
            intro e hee
            apply hne e
            rw [← h2]
            exact List.mem_cons_of_mem _ (List.mem_cons_of_mem _ hee)
          have ihc := ih
            (fetchChannelReplies token ci tsIds (fetchChannelHistory token ci script).2.1).2.1
            rem
            (processChannels token rest
              (fetchChannelReplies token ci tsIds
                (fetchChannelHistory token ci script).2.1).2.1).2.1
            (by rw [← h1, ← h3]) hmem2
          rw [← h2]
          exact ChannelIngestion.cons hcn (by rw [← hh]) (by rw [← hr]) ihc

/-- C4 counterexample: the run meets all the claim's premises (no
`groups.json` in the source, every remote fetch succeeds), yet the
target holds two entries named `alpha/messages.json`, because the
source archive already contained one with the name the synthesized
entry for channel `alpha` gets — "exactly one entry" fails at the
archive level. -/
theorem per_channel_name_collision_counterexample :
    (fetchPrivateChannels [⟨"alpha/messages.json", 0, [5]⟩] "t"
        [.httpResp 200 (.decoded true [⟨[("id", .str "C1"), ("name", .str "alpha")]⟩] ""),
         .httpResp 200 (.decoded true [] "")]).2.2 = .ok ()
    ∧ ((fetchPrivateChannels [⟨"alpha/messages.json", 0, [5]⟩] "t"
        [.httpResp 200 (.decoded true [⟨[("id", .str "C1"), ("name", .str "alpha")]⟩] ""),
         .httpResp 200 (.decoded true [] "")]).2.1.filter
          (fun e => e.name == "alpha/messages.json")).length = 2
    ∧ [SourceEntry.mk "alpha/messages.json" 0 [5]].all
        (fun f => f.name != "groups.json") = true :=
  ⟨rfl, rfl, rfl⟩

/-- C4 (amended): under the claim's premises, the entries the rewrite
appends after the copied source entries are exactly one `groups.json`
holding the listing's channel array, followed — per listed channel in
order — by one `<name>/messages.json` holding that channel's full
fetched message history and one `<name>/replies.json` holding its
combined replies (the `ChannelIngestion` chain ties each content to the
corresponding fetch); archive-wide uniqueness of those names can fail
when the source already contains identically named entries or two
channels share a name. "All remote fetches succeed" appears as: the run
succeeds and no entry was left empty by a discarded reply-fetch
failure. -/
theorem synthesized_entries_structure (files : List SourceEntry) (tok : String)
    (script : List PageResult) (channels : List Record)
    (hng : files.all (fun f => f.name != "groups.json") = true)
    (hlist : (fetchPrivateChannelsList tok script).2.2 = .ok channels)
    (hok : (fetchPrivateChannels files tok script).2.2 = .ok ())
    (hfetch : ∀ e ∈ (fetchPrivateChannels files tok script).2.1,
        e.content ≠ EntryContent.empty) :
    ∃ es rem,
      ChannelIngestion tok channels (fetchPrivateChannelsList tok script).2.1 rem es
      ∧ (fetchPrivateChannels files tok script).2.1
        = files.map copiedEntry
            ++ ⟨"groups.json", none, .records channels⟩
              :: es.map (fun p => ⟨p.1, none, p.2⟩) := by
  have hanyf : files.any (fun f => f.name == "groups.json") = false := by
    rw [List.any_eq_false]
    intro f hf
    have := List.all_eq_true.mp hng f hf
    simpa using this
  have hrun : fetchPrivateChannels files tok script
      = ((createGroupsJson tok script).1,
         files.map copiedEntry
           ++ ⟨"groups.json", none, (createGroupsJson tok script).2.1⟩
             :: (createGroupsJson tok script).2.2.1.map (fun p => ⟨p.1, none, p.2⟩),
         (createGroupsJson tok script).2.2.2) := by
    unfold fetchPrivateChannels
    dsimp only
    rw [if_neg (by rw [hanyf]; exact Bool.false_ne_true)]
  have hgc : createGroupsJson tok script
      = ((processChannels tok channels (fetchPrivateChannelsList tok script).2.1).1,
         .records channels,
         (processChannels tok channels (fetchPrivateChannelsList tok script).2.1).2.1,
         (processChannels tok channels (fetchPrivateChannelsList tok script).2.1).2.2) := by
    unfold createGroupsJson
    dsimp only
    rw [hlist]
  rw [hrun] at hok hfetch
  dsimp only at hok hfetch
  rw [hgc] at hok hfetch
  dsimp only at hok hfetch
  have hne : ∀ e ∈ (processChannels tok channels
      (fetchPrivateChannelsList tok script).2.1).2.1, e.2 ≠ EntryContent.empty := by
    intro e hee
    exact hfetch ⟨e.1, none, e.2⟩
      (List.mem_append_right _ (List.mem_cons_of_mem _ (List.mem_map.mpr ⟨e, hee, rfl⟩)))
  have hchain := processChannels_ok_chain tok channels
    (fetchPrivateChannelsList tok script).2.1
    (processChannels tok channels (fetchPrivateChannelsList tok script).2.1).1
    (processChannels tok channels (fetchPrivateChannelsList tok script).2.1).2.1
    (by rw [← hok]) hne
  refine ⟨(processChannels tok channels (fetchPrivateChannelsList tok script).2.1).2.1,
    (processChannels tok channels (fetchPrivateChannelsList tok script).2.1).1,
    hchain, ?_⟩
  rw [hrun]
  dsimp only
  rw [hgc]

/-- The end-to-end scenario of §8: the listing returns one channel
`proj`, its history one thread parent, its replies two messages, every
page ending in an empty cursor. -/
def endToEndScript : List PageResult :=
  [.httpResp 200 (.decoded true [⟨[("id", .str "C1"), ("name", .str "proj")]⟩] ""),
   .httpResp 200 (.decoded true [⟨[("ts", .str "1.0"), ("reply_count", .num 2)]⟩] ""),
   .httpResp 200 (.decoded true
     [⟨[("ts", .str "1.0"), ("reply_count", .num 2)]⟩, ⟨[("ts", .str "2.0")]⟩] "")]

/-- Witness for C4's amended statement on the end-to-end scenario. -/
theorem synthesized_entries_structure_witness :
    ∃ es rem,
      ChannelIngestion "t" [⟨[("id", .str "C1"), ("name", .str "proj")]⟩]
        (fetchPrivateChannelsList "t" endToEndScript).2.1 rem es
      ∧ (fetchPrivateChannels [⟨"channels.json", 5, [1]⟩] "t" endToEndScript).2.1
        = [SourceEntry.mk "channels.json" 5 [1]].map copiedEntry
            ++ ⟨"groups.json", none,
                .records [⟨[("id", .str "C1"), ("name", .str "proj")]⟩]⟩
              :: es.map (fun p => ⟨p.1, none, p.2⟩) :=
  synthesized_entries_structure [⟨"channels.json", 5, [1]⟩] "t" endToEndScript
    [⟨[("id", .str "C1"), ("name", .str "proj")]⟩] rfl rfl rfl (by decide)
